import Mathlib

/-!
Verification of the warehouse reconciliation engine (`src/app.py`).

The Python source is shallowly embedded: dictionaries that hold per-item
results become structures, Python `None`/missing keys become `Option`,
floats become exact rationals (`ℚ`), raising code returns `Except`.
External collaborators (PIL decoding, the Gemini recognition call, the
spreadsheet reader) are modelled as explicit inputs carrying exactly the
data the engine inspects.
-/

namespace WarehouseApp

/-! ## Python-style string helpers -/

/-- Lowercasing as Python `str.lower` acts on the alphabets this program
uses: ASCII `A`-`Z` and Cyrillic `А`-`Я` (U+0410..U+042F, lowered by
adding 0x20), plus `Ё`. -/
def pyLowerChar (c : Char) : Char :=
  if 'A' ≤ c ∧ c ≤ 'Z' then Char.ofNat (c.toNat + 32)
  else if 'А' ≤ c ∧ c ≤ 'Я' then Char.ofNat (c.toNat + 32)
  else if c = 'Ё' then 'ё'
  else c

/-- Python `text.lower()`. -/
def pyLower (s : String) : String := ⟨s.data.map pyLowerChar⟩

/-- Python `str.strip()` (whitespace trimmed from both ends). -/
def pyStrip (s : String) : String :=
  ⟨((s.data.dropWhile Char.isWhitespace).reverse.dropWhile Char.isWhitespace).reverse⟩

/-- First `n` characters, Python `s[:n]`. -/
def pyTake (n : ℕ) (s : String) : String := ⟨s.data.take n⟩

/-- Whether `needle` is an initial segment of `hay`. -/
def leadsWith : List Char → List Char → Bool
  | [], _ => true
  | _ :: _, [] => false
  | a :: as, b :: bs => a == b && leadsWith as bs

/-- Whether `needle` occurs as a contiguous sublist of `hay`
(Python `needle in hay` on strings). -/
def hasSub (needle : List Char) : List Char → Bool
  | [] => leadsWith needle []
  | l@(_ :: rest) => leadsWith needle l || hasSub needle rest

/-- Python `needle in hay` for strings. -/
def pyIn (needle hay : String) : Bool := hasSub needle.data hay.data

/-- Truthiness of an optional string: `None` and `""` are falsy. -/
def pyTruthyO : Option String → Bool
  | none => false
  | some s => s ≠ ""

/-! ## Python dicts with insertion order (used for the counting passes) -/

/-- Lookup in an insertion-ordered dict, 0 when the key is absent
(the source always guards lookups with `.get(k, 0)` or a membership test). -/
def dictGet : List (String × ℕ) → String → ℕ
  | [], _ => 0
  | p :: ps, k => if p.1 = k then p.2 else dictGet ps k

/-- `d[k] = d.get(k, 0) + 1` on an insertion-ordered dict: an existing key
keeps its position, a new key is appended. -/
def bump (d : List (String × ℕ)) (k : String) : List (String × ℕ) :=
  if k ∈ d.map Prod.fst then
    d.map (fun p => if p.1 = k then (p.1, p.2 + 1) else p)
  else d ++ [(k, 1)]

/-- Append `k` unless already present: the insertion order of dict keys,
also the size of a Python `set` built by repeated insertion. -/
def insertNew (acc : List String) (k : String) : List String :=
  if k ∈ acc then acc else acc ++ [k]

/-- First-seen deduplication of a list of keys. -/
def dedupFirst (l : List String) : List String := l.foldl insertNew []

/-! ## Rounding (Python `round`, banker's rounding, on exact rationals) -/

/-- Round half to even, as Python's builtin `round`. -/
def roundHalfEven (q : ℚ) : ℤ :=
  let f := ⌊q⌋
  let r := q - (f : ℚ)
  if r < 1/2 then f
  else if 1/2 < r then f + 1
  else if f % 2 = 0 then f else f + 1

/-- Python `round(q, ndigits)` modelled on exact rationals. -/
def pyRound (ndigits : ℕ) (q : ℚ) : ℚ :=
  (roundHalfEven (q * ((10 : ℚ) ^ ndigits)) : ℚ) / ((10 : ℚ) ^ ndigits)

/-! ## ImageQualityAnalyzer (`WarehouseAssistant.check_image_quality`)

The PIL decode-and-thumbnail step is external: the model receives either a
decoding failure (the message of the raised exception) or the decoded
data the function inspects — the original `width`/`height` and the pixel
intensities of the grayscale ≤200×200 thumbnail. -/

inductive ImageInput
  | failure (msg : String)
  | img (width height : ℕ) (pixels : List ℕ)
deriving DecidableEq

/-- Mean brightness `sum(pixels)/n` of the thumbnail. -/
def avgOf (pixels : List ℕ) : ℚ := ((pixels.foldl (· + ·) 0 : ℕ) : ℚ) / (pixels.length : ℚ)

/-- Population variance `sum((x-avg)**2)/n` of the thumbnail. -/
def varianceOf (pixels : List ℕ) : ℚ :=
  (pixels.foldl (fun acc x => acc + ((x : ℚ) - avgOf pixels) ^ 2) 0) / (pixels.length : ℚ)

/-- Per-photo quality record returned by `check_image_quality`; the
`filename`/`index` keys are added afterwards by step 2, so they default
to `""`/`0` here. -/
structure QualityInfo where
  status : String
  readable : Bool
  issues : List String
  resolution : String
  brightness : ℚ
  filename : String := ""
  index : ℕ := 0
deriving DecidableEq

/-- The `except`-branch record of `check_image_quality` (any exception is
caught and surfaced as an issue). -/
def qualityErrorInfo (msg : String) : QualityInfo :=
  ⟨"❌", false, ["Ошибка обработки: " ++ msg], "неизвестно", 0, "", 0⟩

/-- `WarehouseAssistant.check_image_quality`. A thumbnail with zero pixels
would make `sum(pixels)/n` raise `ZeroDivisionError`, landing in the same
`except` branch as a decode failure. -/
def check_image_quality : ImageInput → QualityInfo
  | .failure msg => qualityErrorInfo msg
  | .img width height pixels =>
    if pixels.isEmpty then qualityErrorInfo "division by zero"
    else
      let avg := avgOf pixels
      let variance := varianceOf pixels
      let issues :=
        (if width < 300 ∨ height < 300 then ["Низкое разрешение"] else []) ++
        (if variance < 500 then ["Изображение размыто"] else []) ++
        (if 240 < avg then ["Пересвет"] else if avg < 15 then ["Недосвет"] else [])
      let status := if issues.length = 1 then "⚠️" else if issues.isEmpty then "✅" else "❌"
      ⟨status, issues.isEmpty, issues, toString width ++ "x" ++ toString height,
        pyRound 1 avg, "", 0⟩

/-! ## MarkingExtractionAdapter (`WarehouseAssistant.extract_marking_from_photo`)

The external recognition round trip is abstracted to its observable
outcome: an exception anywhere before parsing (image open, upload, API
call), a response whose text is not JSON, or a parsed JSON object with
the four fields the code reads via `.get` (a field that is absent or
JSON-`null` both read back as Python `None`, hence one `Option`). -/

inductive GeminiOutcome
  | transportError (msg : String)
  | badJson
  | json (name article dimensions errorField : Option String)
deriving DecidableEq

/-- A marking record. Python represents it as a dict; two keys are not
always present and are therefore `Option`: `readable` (the record
synthesized by step 3 for an unreadable photo omits it) and `comment`
(the success branch of the extractor omits it until step 3 fills it in).
`filename`/`index` are added by step 3, defaulting to `""`/`0`. -/
structure Marking where
  status : String
  name : Option String
  article : Option String
  dimensions : Option String
  readable : Option Bool
  comment : Option String
  filename : String := ""
  index : ℕ := 0
deriving DecidableEq

/-- `WarehouseAssistant.extract_marking_from_photo`. Every branch of the
Python function returns a dict — the `try`/`except` wrappers make it
total, which the codomain `Marking` (not `Except`) expresses. The
`error` field is tested with Python truthiness (`result_json.get('error')`),
so an absent, `null` or empty-string error falls through to the
completeness classification. -/
def extract_marking_from_photo (o : GeminiOutcome) : Marking :=
  match o with
  | .transportError msg =>
    ⟨"❌", none, none, none, some false, some ("Ошибка API: " ++ pyTake 100 msg), "", 0⟩
  | .badJson =>
    ⟨"❌", none, none, none, some false, some "Ошибка парсинга ответа Gemini", "", 0⟩
  | .json nm art dims err =>
    if pyTruthyO err then
      ⟨"❌", none, none, none, some false, some (err.getD ""), "", 0⟩
    else
      let has_name := nm.isSome
      let has_article := art.isSome
      let status := if has_name && has_article then "✅"
                    else if has_article then "⚠️" else "❌"
      let readable := if has_name && has_article then true
                      else if has_article then true else false
      ⟨status, nm, art, dims, some readable, none, "", 0⟩

/-! ## Step 3 (`step3_extract_markings`) -/

/-- An uploaded photo: its decoded image data (consumed by step 2) and its
original filename. -/
structure Photo where
  image : ImageInput
  filename : String
deriving DecidableEq

/-- The record step 3 synthesizes for a photo flagged unreadable, without
calling the extractor. The Python dict literal carries no `readable` key. -/
def unreadableMarking (filename : String) (index : ℕ) : Marking :=
  ⟨"❌", none, none, none, none, some "Фото нечитаемо", filename, index⟩

/-- Step 3's post-processing of an extractor record: attach
`filename`/`index` and set `comment` (`""`, or `"Маркировка не читается"`
when the record is unreadable; the `marking_info.get("error")` branch can
never fire because the extractor's dicts carry no `error` key). -/
def step3_post (r : Marking) (filename : String) (index : ℕ) : Marking :=
  { r with filename := filename, index := index,
           comment := some (if r.readable = some false then "Маркировка не читается" else "") }

/-- One iteration of step 3's loop for photo `i`. Reading the stored
photo-quality result raises `KeyError` when step 2 never ran, and
indexing `["photos"][i]` raises `IndexError` when it is too short;
both land in the endpoint's `except` branch. The recognition call is an
oracle from the photo index to its outcome. -/
def step3_item (pq : Option (List QualityInfo)) (oracle : ℕ → GeminiOutcome)
    (i : ℕ) (p : Photo) : Except String Marking :=
  match pq with
  | none => .error "KeyError: photo_quality"
  | some l =>
    match l.get? i with
    | none => .error "IndexError: list index out of range"
    | some qi =>
      if qi.readable = false then .ok (unreadableMarking p.filename i)
      else .ok (step3_post (extract_marking_from_photo (oracle i)) p.filename i)

/-- Step 3's `for i, photo_data in enumerate(photos)` loop, accumulating
`marking_results` in order. -/
def step3_loop (pq : Option (List QualityInfo)) (oracle : ℕ → GeminiOutcome) :
    ℕ → List Photo → Except String (List Marking)
  | _, [] => .ok []
  | i, p :: ps => do
    let m ← step3_item pq oracle i p
    let rest ← step3_loop pq oracle (i + 1) ps
    pure (m :: rest)

/-- The marking list produced by `step3_extract_markings` from the photos
and the stored step-2 result. -/
def step3_core (photos : List Photo) (pq : Option (List QualityInfo))
    (oracle : ℕ → GeminiOutcome) : Except String (List Marking) :=
  step3_loop pq oracle 0 photos

/-! ## DimensionParser (`WarehouseAssistant.calculate_square_meters`)

The four regex patterns `NUM [xх] NUM мм`, `NUM [xх] NUM mm`,
`NUM [xх] NUM`, `NUM * NUM` are tried in order with `re.search`
(leftmost match). They are deterministic enough to embed as a direct
character scanner: `NUM = \d+(\.\d+)?` parsed greedily (a digit can never
double as a separator, so greediness loses no match), `\s*` around the
separator, and for the unit-qualified patterns the literal unit after
`\s*`. Numbers are modelled as exact rationals. -/

/-- A matched `\d+(?:\.\d+)?` group, kept as the digit data of the matched
text (the regex yields a string that Python's `float()` then converts):
integer-part value, fraction-digits value, fraction length. -/
structure PyNum where
  ip : ℕ
  fv : ℕ
  fl : ℕ
deriving DecidableEq

/-- The rational value of a matched number, as `float()` reads it
(floats modelled exactly). -/
def numVal (p : PyNum) : ℚ := (p.ip : ℚ) + (p.fv : ℚ) / ((10 : ℚ) ^ p.fl)

/-- Digit characters to a natural number. -/
def digitsVal (ds : List Char) : ℕ := ds.foldl (fun n c => 10 * n + (c.toNat - 48)) 0

/-- Parse `\d+(?:\.\d+)?` at the head of the input; returns the matched
number and the remaining characters. -/
def parseNum (cs : List Char) : Option (PyNum × List Char) :=
  let ds := cs.takeWhile Char.isDigit
  if ds.isEmpty then none
  else
    let rest := cs.drop ds.length
    match rest with
    | '.' :: r2 =>
      let fs := r2.takeWhile Char.isDigit
      if fs.isEmpty then some (⟨digitsVal ds, 0, 0⟩, rest)
      else some (⟨digitsVal ds, digitsVal fs, fs.length⟩, r2.drop fs.length)
    | _ => some (⟨digitsVal ds, 0, 0⟩, rest)

/-- Attempt one pattern anchored at the head:
`NUM \s* sep \s* NUM` then, if `unitTok` is given, `\s* unitTok`. -/
def matchAt (sep : Char → Bool) (unitTok : Option (List Char)) (cs : List Char) :
    Option (PyNum × PyNum) := do
  let (w, r1) ← parseNum cs
  match r1.dropWhile Char.isWhitespace with
  | [] => none
  | c :: r3 =>
    if sep c then do
      let (h, r5) ← parseNum (r3.dropWhile Char.isWhitespace)
      match unitTok with
      | none => some (w, h)
      | some u =>
        if leadsWith u (r5.dropWhile Char.isWhitespace) then some (w, h) else none
    else none

/-- `re.search`: the match starting at the leftmost possible position. -/
def searchPat (sep : Char → Bool) (unitTok : Option (List Char)) :
    List Char → Option (PyNum × PyNum)
  | [] => none
  | c :: rest => (matchAt sep unitTok (c :: rest)).orElse fun _ => searchPat sep unitTok rest

/-- Separator class `[xх]` (Latin and Cyrillic) of the first three patterns. -/
def sepX (c : Char) : Bool := c == 'x' || c == 'х'

/-- Separator `\*` of the fourth pattern. -/
def sepStar (c : Char) : Bool := c == '*'

/-- The `for pattern in patterns` loop over the lowered text: first
pattern that matches anywhere wins. -/
def findDims (lower : String) : Option (PyNum × PyNum) :=
  (searchPat sepX (some "мм".data) lower.data).orElse fun _ =>
  (searchPat sepX (some "mm".data) lower.data).orElse fun _ =>
  (searchPat sepX none lower.data).orElse fun _ =>
  searchPat sepStar none lower.data

/-- Whether the lowered text contains an `мм`/`mm` token
(`'мм' in text.lower() or 'mm' in text.lower()`). -/
def hasMmToken (lower : String) : Bool :=
  pyIn "мм" lower || pyIn "mm" lower

/-- Python `dimensions or name or ""`. -/
def pyOrText (dimensions : Option String) (name : String) : String :=
  match dimensions with
  | some d => if d ≠ "" then d else (if name ≠ "" then name else "")
  | none => if name ≠ "" then name else ""

/-- `WarehouseAssistant.calculate_square_meters`. Total (`try`/`except`
yields `0.0` on any failure, and no search failure can raise here), a
match converts both numbers from millimeters when the text carries an
`мм`/`mm` token or either number exceeds 100, and rounds the product to
3 decimals. -/
def calculate_square_meters (name : String) (dimensions : Option String := none) : ℚ :=
  let text := pyOrText dimensions name
  let lower := pyLower text
  match findDims lower with
  | none => 0
  | some (wn, hn) =>
    let w := numVal wn
    let h := numVal hn
    let wh :=
      if hasMmToken lower then (w / 1000, h / 1000)
      else if 100 < w ∨ 100 < h then (w / 1000, h / 1000)
      else (w, h)
    pyRound 3 (wh.1 * wh.2)

/-! ## Specification parsing (`parse_excel_specification`)

The pandas column resolution scans `df.columns` by keyword; what the rest
of the engine consumes is the produced list of items, so the model takes
the resolved rows (one value per located column; `none` is a pandas NaN)
and keeps every row whose article and quantity are both non-null —
duplicated article values are each kept as their own item. -/

structure SpecRow where
  article : Option String
  quantity : Option ℤ
  name : Option String
deriving DecidableEq

structure SpecItem where
  article : String
  quantity : ℤ
  name : String
deriving DecidableEq

/-- The row loop of `parse_excel_specification`. When a name column was
located, a NaN cell there stringifies to `"nan"` before `.strip()`;
without a name column the name is `""`. -/
def parse_excel_rows (hasNameCol : Bool) (rows : List SpecRow) : List SpecItem :=
  rows.filterMap fun r =>
    match r.article, r.quantity with
    | some a, some q =>
      some ⟨pyStrip a, q,
            if hasNameCol then (match r.name with | some s => pyStrip s | none => "nan")
            else ""⟩
    | _, _ => none

/-! ## Step 4 (`step4_count_verification`) and Step 5 (`step5_compare_specification`) -/

/-- Whether a marking contributes to the per-article tallies: Python
`marking["article"] and ...` (truthy article). -/
def hasArticle (m : Marking) : Bool := pyTruthyO m.article

/-- The article key used by the tallies: `str(marking["article"]).strip()`. -/
def articleKey (m : Marking) : String := pyStrip (m.article.getD "")

/-- First counting pass of step 4: group by status string. -/
def count_by_status (ms : List Marking) : List (String × ℕ) :=
  ms.foldl (fun d m => bump d m.status) []

/-- Second counting pass of step 4: group by trimmed article, restricted
to truthy articles. -/
def count_by_article (ms : List Marking) : List (String × ℕ) :=
  ms.foldl (fun d m => if hasArticle m then bump d (articleKey m) else d) []

structure Step4Result where
  by_status : List (String × ℕ)
  by_article : List (String × ℕ)
  total_photos : ℕ
  readable_markings : ℕ
  unique_articles : ℕ
deriving DecidableEq

/-- The body of step 4. `sum(1 for m in markings if m["readable"])` reads
the `readable` key unconditionally, so a record without it (the ones
step 3 synthesizes) raises `KeyError` into the endpoint's `except`. -/
def step4_body (ms : List Marking) : Except String Step4Result := do
  let readable ← ms.foldlM (fun n m =>
    match m.readable with
    | none => Except.error "KeyError: readable"
    | some b => pure (if b then n + 1 else n)) 0
  let articles_found := (ms.filter hasArticle).map articleKey
  pure ⟨count_by_status ms, count_by_article ms, ms.length, readable,
        (dedupFirst articles_found).length⟩

/-- One row of step 5's comparison table. -/
structure CompRecord where
  article : String
  name : String
  planned : ℤ
  actual : ℤ
  difference : ℤ
  status : String
deriving DecidableEq

/-- One step of building `actual_count` in step 5: the guard is
`marking["article"] and marking["readable"]` — the truthy-article test
short-circuits, and only then is the `readable` key read (raising
`KeyError` if absent, which cannot happen for pipeline-produced records
because every record with an article also carries `readable`). -/
def countStep (d : List (String × ℕ)) (m : Marking) : Except String (List (String × ℕ)) :=
  if hasArticle m then
    match m.readable with
    | none => Except.error "KeyError: readable"
    | some b => pure (if b then bump d (articleKey m) else d)
  else pure d

/-- Step 5's `actual_count` dict: per-article tallies over readable,
article-bearing markings only. -/
def actual_count (ms : List Marking) : Except String (List (String × ℕ)) :=
  ms.foldlM countStep []

/-- The predicate `countStep` effectively counts by: a truthy article and
`readable` equal to `True`. -/
def countedMarking (m : Marking) : Bool := hasArticle m && m.readable == some true

/-- The articles of the specification; Python accumulates this set during
the first loop, but the loop that consults it runs only after the set is
complete. -/
def spec_articles (specification : List SpecItem) : List String :=
  specification.map (·.article)

structure Step5Result where
  comparison : List CompRecord
  total_positions : ℕ
  exact_match : ℕ
  shortage : ℕ
  excess : ℕ
  extra_articles : ℕ
deriving DecidableEq

/-- The comparison row for one specification item. -/
def specCompareRecord (d : List (String × ℕ)) (item : SpecItem) : CompRecord :=
  let planned : ℤ := item.quantity
  let actual : ℤ := (dictGet d item.article : ℤ)
  let difference := actual - planned
  let status := if difference = 0 then "✅" else if difference < 0 then "⬇️" else "⬆️"
  ⟨item.article, item.name, planned, actual, difference, status⟩

/-- The comparison row for an observed article absent from the specification. -/
def unplannedRecord (d : List (String × ℕ)) (a : String) : CompRecord :=
  ⟨a, "Не в спецификации", 0, (dictGet d a : ℤ), (dictGet d a : ℤ), "🔁"⟩

/-- The body of step 5 after its preconditions: build `actual_count`,
emit one row per specification item in file order, then one row per
leftover `actual_count` key in dict (first-seen) order, then the summary
counts. -/
def step5_core (specification : List SpecItem) (ms : List Marking) :
    Except String Step5Result := do
  let d ← actual_count ms
  let sArts := spec_articles specification
  let comparison :=
    specification.map (specCompareRecord d) ++
    ((d.map Prod.fst).filter (fun a => !(sArts.contains a))).map (unplannedRecord d)
  pure ⟨comparison,
        comparison.length,
        comparison.countP (fun c => c.status == "✅"),
        comparison.countP (fun c => c.status == "⬇️"),
        comparison.countP (fun c => c.status == "⬆️"),
        comparison.countP (fun c => c.status == "🔁")⟩

instance {ε α : Type} [DecidableEq ε] [DecidableEq α] : DecidableEq (Except ε α) := fun x y =>
  match x, y with
  | .ok a, .ok b => if h : a = b then .isTrue (by rw [h]) else .isFalse (by simp [h])
  | .error a, .error b => if h : a = b then .isTrue (by rw [h]) else .isFalse (by simp [h])
  | .ok _, .error _ => .isFalse (by simp)
  | .error _, .ok _ => .isFalse (by simp)

/-! ## The workflow session (`session_data` and the step endpoints)

`session_data` is the single mutable session dict. Its `results` dict is
modelled by one `Option` per stage key (`photo_quality`, `markings`,
`count_verification`, `comparison`): `none` means the key is absent. The
`specification` entry abstracts the uploaded file to the outcome of
parsing it (`parse_excel_specification` either returns the item list or
raises `ValueError`). Each endpoint returns the new session state
together with its response: every `raise` happens before any mutation of
`session_data`, so the error branches return the state unchanged —
exactly the Python control flow, where the mutating assignments are the
last statements of each `try` block. -/

/-- An uploaded spreadsheet: its grid of cell values (`none` = an empty
cell); row `r` (1-based) is `rows[r-1]`, and reading past the grid yields
empty cells, as openpyxl does. -/
structure Sheet where
  rows : List (List (Option String))
deriving DecidableEq

structure Step2Result where
  photos : List QualityInfo
  total : ℕ
  readable_count : ℕ
  unreadable : ℕ
deriving DecidableEq

structure SessionData where
  specification : Option (Except String (List SpecItem))
  template : Option Sheet
  photos : List Photo
  step : ℕ
  results_photo_quality : Option Step2Result
  results_markings : Option (List Marking)
  results_count_verification : Option Step4Result
  results_comparison : Option Step5Result
deriving DecidableEq

/-- `step2_check_photo_quality`: runs the quality analyzer over every
photo, attaching `filename`/`index`, and stores the result. The endpoint
performs no prerequisite check of any kind — its body cannot raise, it
always records `photo_quality` and sets the step to 3. -/
def step2_check_photo_quality (s : SessionData) : SessionData × Step2Result :=
  let pq := s.photos.enum.map fun (i, p) =>
    { check_image_quality p.image with filename := p.filename, index := i }
  let unreadable := (pq.filter (fun q => q.readable = false)).length
  let r : Step2Result := ⟨pq, pq.length, pq.length - unreadable, unreadable⟩
  ({ s with results_photo_quality := some r, step := 3 }, r)

/-- The `HTTPException` detail raised by steps 4 and 5 when the markings
result of step 3 is absent (the out-of-order condition). -/
def markingsMissingMsg : String := "Отсутствуют данные маркировок. Выполните шаг 3."

/-- The `HTTPException` detail raised by step 5 when no specification file
was uploaded. -/
def specMissingMsg : String := "Отсутствует файл спецификации"

/-- `step4_count_verification`: fails (and leaves the session unchanged)
when step 3's markings are not recorded; otherwise runs the double count
and stores it. -/
def step4_count_verification (s : SessionData) : SessionData × Except String Step4Result :=
  match s.results_markings with
  | none => (s, .error markingsMissingMsg)
  | some ms =>
    match step4_body ms with
    | .error e => (s, .error e)
    | .ok r => ({ s with results_count_verification := some r, step := 5 }, .ok r)

/-- `step5_compare_specification`: checks the specification upload, then
the markings result, then parses the specification, then compares; every
failure leaves the session unchanged, success stores the comparison and
sets the step to 6. -/
def step5_compare_specification (s : SessionData) : SessionData × Except String Step5Result :=
  match s.specification with
  | none => (s, .error specMissingMsg)
  | some parsed =>
    match s.results_markings with
    | none => (s, .error markingsMissingMsg)
    | some ms =>
      match parsed with
      | .error e => (s, .error e)
      | .ok specification =>
        match step5_core specification ms with
        | .error e => (s, .error e)
        | .ok r => ({ s with results_comparison := some r, step := 6 }, .ok r)

/-! ## DocumentGenerator (`generate_filled_invoice`, `generate_updated_specification`)

The generators' effect on the workbook is modelled as the list of cell
writes (and, for the updated specification, highlight fills) they
perform. -/

def rowCells (ws : Sheet) (r : ℕ) : List (Option String) := ws.rows.getD (r - 1) []

def maxRow (ws : Sheet) : ℕ := ws.rows.length

/-- openpyxl's `ws.max_column` (at least 1 even for an empty sheet). -/
def maxColumn (ws : Sheet) : ℕ := (ws.rows.map List.length).foldl Nat.max 1

/-- Truthiness of a cell value (`if cell.value:`). -/
def truthyCell : Option String → Bool
  | none => false
  | some s => s ≠ ""

/-- A written cell value. -/
inductive CellVal
  | s (v : String)
  | i (v : ℤ)
  | q (v : ℚ)
deriving DecidableEq

structure CellWrite where
  row : ℕ
  col : ℕ
  val : CellVal
deriving DecidableEq

/-- Header-row search of `generate_filled_invoice`: scan rows 1..9 for a
cell whose lowered truthy value contains a name keyword. The `break`
condition is `header_row > 1`, so a match in row 1 does not stop the
scan — the effective result is the first matching row among 2..9, else 1. -/
def find_header_row (ws : Sheet) : ℕ :=
  (List.range' 1 9).foldl
    (fun hr r =>
      if hr > 1 then hr
      else if (rowCells ws r).any (fun c =>
          truthyCell c &&
          (pyIn "наименование" (pyLower (c.getD "")) || pyIn "название" (pyLower (c.getD ""))))
      then r else hr)
    1

structure InvCols where
  name_col : Option ℕ
  unit_col : Option ℕ
  qty_col : Option ℕ
  area_col : Option ℕ
deriving DecidableEq

/-- Column resolution over the header row of the invoice template
(`enumerate(ws[header_row], 1)` with an `elif` chain; a later matching
column overwrites an earlier one). -/
def resolve_invoice_columns (cells : List (Option String)) : InvCols :=
  cells.enum.foldl
    (fun acc (idx0, c) =>
      let col_idx := idx0 + 1
      if truthyCell c then
        let lv := pyLower (c.getD "")
        if pyIn "наименование" lv || pyIn "название" lv then { acc with name_col := some col_idx }
        else if pyIn "ед.изм" lv || pyIn "единица" lv then { acc with unit_col := some col_idx }
        else if pyIn "количество" lv || pyIn "кол-во" lv then { acc with qty_col := some col_idx }
        else if pyIn "площадь" lv || pyIn "м²" lv || pyIn "кв.м" lv then { acc with area_col := some col_idx }
        else acc
      else acc)
    ⟨none, none, none, none⟩

/-- The writes for one comparison row with `actual > 0`: position number
in column 1, then each role field only when its column resolved. -/
def invoice_item_writes (cols : InvCols) (markings : List Marking)
    (data_row : ℕ) (row_num : ℤ) (item : CompRecord) : List CellWrite :=
  [⟨data_row, 1, .i row_num⟩] ++
  (match cols.name_col with
   | none => []
   | some nc =>
     let full_name :=
       match markings.find? (fun m => m.article == some item.article && pyTruthyO m.name) with
       | some m => m.name.getD ""
       | none => item.name
     [⟨data_row, nc, .s (if full_name ≠ "" then full_name else item.article)⟩]) ++
  (match cols.unit_col with
   | none => []
   | some uc => [⟨data_row, uc, .s "шт"⟩]) ++
  (match cols.qty_col with
   | none => []
   | some qc => [⟨data_row, qc, .i item.actual⟩]) ++
  (match cols.area_col with
   | none => []
   | some ac =>
     let dims :=
       match markings.find? (fun m => m.article == some item.article && pyTruthyO m.dimensions) with
       | some m => m.dimensions
       | none => none
     let area_per_item := calculate_square_meters
       (if item.name ≠ "" then item.name else item.article) dims
     let total_area := area_per_item * (item.actual : ℚ)
     if 0 < total_area then [⟨data_row, ac, .q (pyRound 2 total_area)⟩] else [])

/-- The fill loop of `generate_filled_invoice`: rows with `actual > 0`
occupy consecutive data rows, numbered from 1. -/
def invoice_fill_loop (cols : InvCols) (markings : List Marking) :
    ℕ → ℤ → List CompRecord → List CellWrite
  | _, _, [] => []
  | data_row, row_num, item :: rest =>
    if 0 < item.actual then
      invoice_item_writes cols markings data_row row_num item ++
      invoice_fill_loop cols markings (data_row + 1) (row_num + 1) rest
    else invoice_fill_loop cols markings data_row row_num rest

/-- `generate_filled_invoice`. A missing template artifact raises; with a
template, the body performs only guarded writes and always completes. -/
def generate_filled_invoice (template : Option Sheet) (comparison : List CompRecord)
    (markings : List Marking) : Except String (List CellWrite) :=
  match template with
  | none => .error "Отсутствует файл шаблона накладной"
  | some ws =>
    let hr := find_header_row ws
    let cols := resolve_invoice_columns (rowCells ws hr)
    .ok (invoice_fill_loop cols markings (hr + 1) 1 comparison)

structure SpecCols where
  article_col : Option ℕ
  shipped_col : Option ℕ
  date_col : Option ℕ
deriving DecidableEq

/-- Column search of `generate_updated_specification`: all cells of rows
1..9 are scanned with an `elif` chain and no `break`, so the last match
wins for each role. -/
def resolve_spec_columns (ws : Sheet) : SpecCols :=
  (List.range' 1 9).foldl
    (fun acc r =>
      (rowCells ws r).enum.foldl
        (fun acc2 (idx0, c) =>
          let col_idx := idx0 + 1
          if truthyCell c then
            let lv := pyLower (c.getD "")
            if pyIn "артикул" lv || pyIn "код" lv then { acc2 with article_col := some col_idx }
            else if pyIn "отгружен" lv || pyIn "отправлен" lv then { acc2 with shipped_col := some col_idx }
            else if pyIn "дата" lv then { acc2 with date_col := some col_idx }
            else acc2
          else acc2)
        acc)
    ⟨none, none, none⟩

/-- One row of the update loop. `ws.cell(row=row_idx, column=article_col)`
raises when `article_col` is `None` (openpyxl rejects a non-integer
column), before the cell value is even inspected. -/
def update_row (ws : Sheet) (article_col : Option ℕ) (shipped_col date_col : ℕ)
    (comparison : List CompRecord) (shipment_date : String) (row_idx : ℕ) :
    Except String (List CellWrite × List (ℕ × ℕ)) :=
  match article_col with
  | none => .error "TypeError: column must be a positive integer"
  | some ac =>
    let v := (rowCells ws row_idx).getD (ac - 1) none
    if truthyCell v then
      let article := pyStrip (v.getD "")
      match comparison.find? (fun it => it.article == article) with
      | some it =>
        .ok ([⟨row_idx, shipped_col, .i it.actual⟩, ⟨row_idx, date_col, .s shipment_date⟩],
             if it.status == "⬆️" || it.status == "🔁" then [(row_idx, shipped_col)] else [])
      | none => .ok ([], [])
    else .ok ([], [])

/-- `generate_updated_specification`: resolve (or create) the columns,
then update rows 2..max_row; cell writes and red-fill highlights are
returned. When the shipped column is created, Python computes the date
column as `max(shipped_col, ws.max_column) + 1` — the explicit `max`
makes the original `max_column` sufficient for the model. -/
def generate_updated_specification (specSheet : Option Sheet) (comparison : List CompRecord)
    (shipment_date : String) : Except String (List CellWrite × List (ℕ × ℕ)) :=
  match specSheet with
  | none => .error "Ошибка обновления спецификации: спецификация не загружена"
  | some ws =>
    let cols := resolve_spec_columns ws
    let shippedCreate :=
      match cols.shipped_col with
      | some c => (c, ([] : List CellWrite))
      | none => (maxColumn ws + 1, [⟨1, maxColumn ws + 1, .s "Отгруженные"⟩])
    let shipped_col := shippedCreate.1
    let dateCreate :=
      match cols.date_col with
      | some c => (c, ([] : List CellWrite))
      | none => (Nat.max shipped_col (maxColumn ws) + 1,
                 [⟨1, Nat.max shipped_col (maxColumn ws) + 1, .s "Дата отгрузки"⟩])
    let date_col := dateCreate.1
    match (List.range' 2 (maxRow ws - 1)).foldlM
        (fun acc r => do
          let x ← update_row ws cols.article_col shipped_col date_col comparison shipment_date r
          pure (acc.1 ++ x.1, acc.2 ++ x.2))
        (([], []) : List CellWrite × List (ℕ × ℕ)) with
    | .error e => .error e
    | .ok rws => .ok (shippedCreate.2 ++ dateCreate.2 ++ rws.1, rws.2)

/-! ## Fixtures and statement vocabulary -/

/-- The tier invariant of spec §3/§8: `Full` (✅) iff both name and
article are present, `Partial` (⚠️) iff article is present and name is
absent, `Failed` (❌) otherwise (i.e. iff the article is absent). -/
def statusTierOk (m : Marking) : Prop :=
  (m.status = "✅" ↔ (m.name.isSome ∧ m.article.isSome)) ∧
  (m.status = "⚠️" ↔ (m.article.isSome ∧ m.name = none)) ∧
  (m.status = "❌" ↔ m.article = none)

/-- The end-to-end example of spec §8: specification A1: qty 10, A2: qty 5. -/
def exampleSpec : List SpecItem := [⟨"A1", 10, ""⟩, ⟨"A2", 5, ""⟩]

/-- A fully recognized marking record for article `a`, as the pipeline
produces it (step-3 post-processing applied). -/
def fullMarking (a : String) : Marking :=
  ⟨"✅", some "Изделие", some a, none, some true, some "", "photo.jpg", 0⟩

/-- Markings yielding actual counts A1: 10, A2: 7, A3: 2. -/
def exampleMarkings : List Marking :=
  List.replicate 10 (fullMarking "A1") ++ List.replicate 7 (fullMarking "A2") ++
  List.replicate 2 (fullMarking "A3")

/-- The expected step-5 output on the §8 example. -/
def exampleStep5Result : Step5Result :=
  ⟨[⟨"A1", "", 10, 10, 0, "✅"⟩, ⟨"A2", "", 5, 7, 2, "⬆️"⟩,
    ⟨"A3", "Не в спецификации", 0, 2, 2, "🔁"⟩], 3, 1, 0, 1, 1⟩

/-- Specification rows carrying a duplicated article value. -/
def dupRows : List SpecRow :=
  [⟨some "B", some 1, some "Деталь"⟩, ⟨some "B", some 2, some "Деталь"⟩]

/-- A fresh session: one uploaded photo, step 1, no recorded results. -/
def s0 : SessionData :=
  ⟨none, none, [⟨ImageInput.img 400 400 [0, 100], "p1.jpg"⟩], 1, none, none, none, none⟩

/-- A decoded image whose only quality issue is low resolution: the
"marginal" single-issue tier. -/
def marginalImage : ImageInput := ImageInput.img 200 400 [0, 100]

/-- A two-row sheet none of whose cells matches any role keyword. -/
def noArticleSheet : Sheet := ⟨[[some "A"], [some "B"]]⟩

/-- The issue list `check_image_quality` builds for a decoded image. -/
def imgIssues (w h : ℕ) (px : List ℕ) : List String :=
  (if w < 300 ∨ h < 300 then ["Низкое разрешение"] else []) ++
  (if varianceOf px < 500 then ["Изображение размыто"] else []) ++
  (if 240 < avgOf px then ["Пересвет"] else if avgOf px < 15 then ["Недосвет"] else [])

/-! ## Supporting lemmas about the counting dictionaries -/

theorem bump_keys (d : List (String × ℕ)) (k : String) :
    (bump d k).map Prod.fst = insertNew (d.map Prod.fst) k := by
  unfold bump insertNew
  by_cases hmem : k ∈ d.map Prod.fst
  · simp only [hmem, if_true, List.map_map]
    apply List.map_congr_left
    intro p _
    by_cases hk : p.1 = k <;> simp [hk]
  · simp [hmem]

theorem dictGet_map_ne (d : List (String × ℕ)) (k a : String) (h : a ≠ k) :
    dictGet (d.map (fun p => if p.1 = k then (p.1, p.2 + 1) else p)) a = dictGet d a := by
  induction d with
  | nil => rfl
  | cons p ps ih =>
    by_cases hpk : p.1 = k
    · have hpa : ¬ (p.1 = a) := by rw [hpk]; exact fun hc => h hc.symm
      simp [dictGet, hpk, hpa, ih, Ne.symm h]
    · by_cases hpa : p.1 = a <;> simp [dictGet, hpk, hpa, ih, h]

theorem dictGet_map_eq (d : List (String × ℕ)) (k : String) (h : k ∈ d.map Prod.fst) :
    dictGet (d.map (fun p => if p.1 = k then (p.1, p.2 + 1) else p)) k = dictGet d k + 1 := by
  induction d with
  | nil => simp at h
  | cons p ps ih =>
    by_cases hpk : p.1 = k
    · simp [dictGet, hpk]
    · have h' : k ∈ ps.map Prod.fst := by
        rcases List.mem_map.mp h with ⟨q, hq, hfst⟩
        rcases List.mem_cons.mp hq with rfl | hq'
        · exact absurd hfst hpk
        · exact List.mem_map.mpr ⟨q, hq', hfst⟩
      simp [dictGet, hpk, ih h']

theorem dictGet_append_new (d : List (String × ℕ)) (k a : String) (h : k ∉ d.map Prod.fst) :
    dictGet (d ++ [(k, 1)]) a = dictGet d a + (if a = k then 1 else 0) := by
  induction d with
  | nil =>
    by_cases hak : a = k
    · simp [dictGet, hak]
    · have : ¬ (k = a) := fun hc => hak hc.symm
      simp [dictGet, hak, this]
  | cons p ps ih =>
    have h' : k ∉ ps.map Prod.fst := fun hc => by
      rcases List.mem_map.mp hc with ⟨q, hq, hfst⟩
      exact h (List.mem_map.mpr ⟨q, List.mem_cons_of_mem p hq, hfst⟩)
    by_cases hpa : p.1 = a
    · have hak : ¬ (a = k) := by
        intro hc
        exact h (List.mem_map.mpr ⟨p, List.mem_cons_self p ps, by rw [hpa, hc]⟩)
      simp [dictGet, hpa, hak]
    · simp [dictGet, hpa, ih h']

theorem dictGet_bump (d : List (String × ℕ)) (k a : String) :
    dictGet (bump d k) a = dictGet d a + (if a = k then 1 else 0) := by
  unfold bump
  by_cases hmem : k ∈ d.map Prod.fst
  · by_cases hak : a = k
    · subst hak
      simp [hmem, dictGet_map_eq d a hmem]
    · simp [hmem, dictGet_map_ne d k a hak, hak]
  · simp [hmem, dictGet_append_new d k a hmem]

theorem bump_val_pos (d : List (String × ℕ)) (k : String) (h : ∀ p ∈ d, 1 ≤ p.2) :
    ∀ p ∈ bump d k, 1 ≤ p.2 := by
  unfold bump
  intro p hp
  by_cases hmem : k ∈ d.map Prod.fst
  · simp only [hmem, if_true] at hp
    rcases List.mem_map.mp hp with ⟨q, hq, hupd⟩
    by_cases hqk : q.1 = k
    · subst hupd; simp [hqk]
    · subst hupd; simpa [hqk] using h q hq
  · simp only [hmem, if_false, List.mem_append] at hp
    rcases hp with hp | hp
    · exact h p hp
    · simp only [List.mem_singleton] at hp
      subst hp
      simp

theorem dictGet_pos (d : List (String × ℕ)) (a : String)
    (hmem : a ∈ d.map Prod.fst) (h : ∀ p ∈ d, 1 ≤ p.2) : 1 ≤ dictGet d a := by
  induction d with
  | nil => simp at hmem
  | cons p ps ih =>
    by_cases hpa : p.1 = a
    · simpa [dictGet, hpa] using h p (List.mem_cons_self p ps)
    · have h' : a ∈ ps.map Prod.fst := by
        rcases List.mem_map.mp hmem with ⟨q, hq, hfst⟩
        rcases List.mem_cons.mp hq with rfl | hq'
        · exact absurd hfst hpa
        · exact List.mem_map.mpr ⟨q, hq', hfst⟩
      simpa [dictGet, hpa] using ih h' (fun q hq => h q (List.mem_cons_of_mem p hq))

theorem insertNew_nodup (acc : List String) (k : String) (h : acc.Nodup) :
    (insertNew acc k).Nodup := by
  unfold insertNew
  by_cases hk : k ∈ acc
  · simpa [hk] using h
  · simp only [hk, if_false]
    rw [List.nodup_append]
    refine ⟨h, List.nodup_singleton k, ?_⟩
    intro a ha hc
    simp at hc
    subst hc
    exact hk ha

theorem bump_keys_nodup (d : List (String × ℕ)) (k : String)
    (h : (d.map Prod.fst).Nodup) : ((bump d k).map Prod.fst).Nodup := by
  rw [bump_keys]
  exact insertNew_nodup _ _ h

theorem actual_count_go : ∀ (ms : List Marking) (d0 d : List (String × ℕ)),
    List.foldlM countStep d0 ms = .ok d →
    (∀ a, dictGet d a = dictGet d0 a + (((ms.filter countedMarking).map articleKey).count a)) ∧
    (d.map Prod.fst = ((ms.filter countedMarking).map articleKey).foldl insertNew (d0.map Prod.fst)) ∧
    ((∀ p ∈ d0, 1 ≤ p.2) → ∀ p ∈ d, 1 ≤ p.2) ∧
    ((d0.map Prod.fst).Nodup → (d.map Prod.fst).Nodup)
  | [], d0, d, h => by
    simp only [List.foldlM_nil, pure, Except.pure, Except.ok.injEq] at h
    subst h
    simp
  | m :: ms, d0, d, h => by
    rw [List.foldlM_cons] at h
    by_cases hart : hasArticle m
    · cases hr : m.readable with
      | none =>
        simp only [countStep, hart, if_true, hr] at h
        simp [Bind.bind, Except.bind] at h
      | some b =>
        simp only [countStep, hart, if_true, hr] at h
        simp only [pure, Except.pure, Bind.bind, Except.bind] at h
        cases b with
        | true =>
          have hcm : countedMarking m = true := by
            simp [countedMarking, hart, hr]
          rcases actual_count_go ms (bump d0 (articleKey m)) d (by simpa using h) with
            ⟨hcount, hkeys, hpos, hnodup⟩
          refine ⟨?_, ?_, ?_, ?_⟩
          · intro a
            rw [hcount a, dictGet_bump]
            simp [List.filter_cons, hcm, List.count_cons, beq_iff_eq]
            by_cases hak : a = articleKey m <;> simp [hak, eq_comm]
            all_goals omega
          · rw [hkeys, bump_keys]
            simp [List.filter_cons, hcm]
          · intro h0
            exact hpos (bump_val_pos d0 (articleKey m) h0)
          · intro h0
            exact hnodup (bump_keys_nodup d0 (articleKey m) h0)
        | false =>
          have hcm : countedMarking m = false := by
            simp [countedMarking, hr]
          rcases actual_count_go ms d0 d (by simpa using h) with ⟨hcount, hkeys, hpos, hnodup⟩
          refine ⟨?_, ?_, hpos, hnodup⟩
          · intro a
            rw [hcount a]
            simp [List.filter_cons, hcm]
          · rw [hkeys]
            simp [List.filter_cons, hcm]
    · have hcm : countedMarking m = false := by
        simp [countedMarking, hart]
      simp only [countStep, hart, if_false] at h
      simp only [pure, Except.pure, Bind.bind, Except.bind] at h
      rcases actual_count_go ms d0 d (by simpa using h) with ⟨hcount, hkeys, hpos, hnodup⟩
      refine ⟨?_, ?_, hpos, hnodup⟩
      · intro a
        rw [hcount a]
        simp [List.filter_cons, hcm]
      · rw [hkeys]
        simp [List.filter_cons, hcm]

theorem actual_count_spec (ms : List Marking) (d : List (String × ℕ))
    (h : actual_count ms = .ok d) :
    (∀ a, dictGet d a = (((ms.filter countedMarking).map articleKey).count a)) ∧
    (d.map Prod.fst = dedupFirst ((ms.filter countedMarking).map articleKey)) ∧
    (∀ p ∈ d, 1 ≤ p.2) ∧ (d.map Prod.fst).Nodup := by
  rcases actual_count_go ms [] d h with ⟨hcount, hkeys, hpos, hnodup⟩
  refine ⟨fun a => by simpa [dictGet] using hcount a, by simpa [dedupFirst] using hkeys,
    hpos (by simp), hnodup (by simp)⟩

/-- The comparison list a successful step 5 run builds: one row per
specification item from `actual_count`, then one row per leftover
`actual_count` key. -/
theorem step5_core_ok_shape (specification : List SpecItem) (ms : List Marking) (r : Step5Result)
    (h : step5_core specification ms = .ok r) :
    ∃ d, actual_count ms = .ok d ∧
      r.comparison = specification.map (specCompareRecord d) ++
        ((d.map Prod.fst).filter
          (fun a => !((spec_articles specification).contains a))).map (unplannedRecord d) := by
  unfold step5_core at h
  cases hd : actual_count ms with
  | error e =>
    rw [hd] at h
    simp [Bind.bind, Except.bind] at h
  | ok d =>
    rw [hd] at h
    simp only [Bind.bind, Except.bind, pure, Except.pure, Except.ok.injEq] at h
    refine ⟨d, rfl, ?_⟩
    rw [← h]

/-- The article column of the comparison list: specification articles in
file order, then the distinct unplanned article keys in first-seen order
of the counted markings. -/
theorem step5_comparison_articles (specification : List SpecItem) (ms : List Marking)
    (r : Step5Result) (h : step5_core specification ms = .ok r) :
    r.comparison.map (fun c => c.article) =
      specification.map (fun item => item.article) ++
      (dedupFirst ((ms.filter countedMarking).map articleKey)).filter
        (fun a => !((spec_articles specification).contains a)) := by
  rcases step5_core_ok_shape specification ms r h with ⟨d, hd, hcomp⟩
  rcases actual_count_spec ms d hd with ⟨_, hkeys, _, _⟩
  rw [hcomp, List.map_append, List.map_map, List.map_map, ← hkeys]
  congr 1
  have hid : ((fun c : CompRecord => c.article) ∘ unplannedRecord d) = fun a : String => a := by
    funext a
    rfl
  rw [hid]
  exact List.map_id' _

theorem dedupFirst_go_nodup (l : List String) :
    ∀ acc : List String, acc.Nodup → (l.foldl insertNew acc).Nodup := by
  induction l with
  | nil => intro acc h; simpa using h
  | cons a l ih =>
    intro acc h
    exact ih (insertNew acc a) (insertNew_nodup acc a h)

theorem dedupFirst_nodup (l : List String) : (dedupFirst l).Nodup :=
  dedupFirst_go_nodup l [] (by simp)

/-- Step 3's loop yields, at each index `j`, exactly the record its item
computation produces for photo `j`. -/
theorem step3_loop_get : ∀ (ps : List Photo) (pq : Option (List QualityInfo))
    (oracle : ℕ → GeminiOutcome) (i0 : ℕ) (ms : List Marking),
    step3_loop pq oracle i0 ps = .ok ms →
    ∀ (j : ℕ) (hj : j < ps.length),
      ∃ m, step3_item pq oracle (i0 + j) (ps.get ⟨j, hj⟩) = .ok m ∧ ms.get? j = some m := by
  intro ps
  induction ps with
  | nil =>
    intro pq oracle i0 ms h j hj
    exact absurd hj (by simp)
  | cons p ps ih =>
    intro pq oracle i0 ms h j hj
    rw [step3_loop] at h
    cases hitem : step3_item pq oracle i0 p with
    | error e => rw [hitem] at h; simp [Bind.bind, Except.bind] at h
    | ok m =>
      cases hrest : step3_loop pq oracle (i0 + 1) ps with
      | error e => rw [hitem, hrest] at h; simp [Bind.bind, Except.bind] at h
      | ok rest =>
        rw [hitem, hrest] at h
        simp only [Bind.bind, Except.bind, pure, Except.pure, Except.ok.injEq] at h
        subst h
        cases j with
        | zero => exact ⟨m, by simpa using hitem, rfl⟩
        | succ j2 =>
          have hj2 : j2 < ps.length := by simpa using hj
          rcases ih pq oracle (i0 + 1) rest hrest j2 hj2 with ⟨m2, hm2, hget⟩
          refine ⟨m2, ?_, by simpa using hget⟩
          have harith : i0 + 1 + j2 = i0 + (j2 + 1) := by omega
          rw [← harith]
          exact hm2

theorem check_image_quality_img_eq (w h : ℕ) (px : List ℕ) (hne : px.isEmpty = false) :
    check_image_quality (.img w h px) =
      ⟨if (imgIssues w h px).length = 1 then "⚠️"
        else if (imgIssues w h px).isEmpty then "✅" else "❌",
       (imgIssues w h px).isEmpty, imgIssues w h px,
       toString w ++ "x" ++ toString h, pyRound 1 (avgOf px), "", 0⟩ := by
  simp only [check_image_quality, hne, Bool.false_eq_true, if_false, imgIssues]

theorem status_marginal_iff (l : List String) :
    ((if l.length = 1 then "⚠️" else if l.isEmpty then "✅" else "❌") = "⚠️") ↔
      l.length = 1 := by
  by_cases h1 : l.length = 1
  · simp [h1]
  · by_cases h2 : l.isEmpty <;> simp [h1, h2]

theorem mem_ite_singleton {A : Type} {c : Prop} [Decidable c] {w x : A}
    (h : w ∈ (if c then [x] else ([] : List A))) : w = x := by
  by_cases hc : c
  · rw [if_pos hc] at h
    simpa using h
  · rw [if_neg hc] at h
    simp at h

/-- Every cell write of one invoice row targets the position column 1 or
one of the resolved role columns. -/
theorem invoice_item_writes_cols (cols : InvCols) (markings : List Marking)
    (dr : ℕ) (rn : ℤ) (item : CompRecord) :
    ∀ w ∈ invoice_item_writes cols markings dr rn item,
      w.col = 1 ∨ some w.col = cols.name_col ∨ some w.col = cols.unit_col ∨
      some w.col = cols.qty_col ∨ some w.col = cols.area_col := by
  intro w hw
  unfold invoice_item_writes at hw
  rcases List.mem_append.mp hw with hw | hw5
  rcases List.mem_append.mp hw with hw | hw4
  rcases List.mem_append.mp hw with hw | hw3
  rcases List.mem_append.mp hw with hw1 | hw2
  · simp only [List.mem_singleton] at hw1
    subst hw1
    exact Or.inl rfl
  · cases hn : cols.name_col with
    | none => rw [hn] at hw2; simp at hw2
    | some nc =>
      rw [hn] at hw2
      simp only [List.mem_singleton] at hw2
      subst hw2
      exact Or.inr (Or.inl (by simp [hn]))
  · cases hu : cols.unit_col with
    | none => rw [hu] at hw3; simp at hw3
    | some uc =>
      rw [hu] at hw3
      simp only [List.mem_singleton] at hw3
      subst hw3
      exact Or.inr (Or.inr (Or.inl (by simp [hu])))
  · cases hq : cols.qty_col with
    | none => rw [hq] at hw4; simp at hw4
    | some qc =>
      rw [hq] at hw4
      simp only [List.mem_singleton] at hw4
      subst hw4
      exact Or.inr (Or.inr (Or.inr (Or.inl (by simp [hq]))))
  · cases ha : cols.area_col with
    | none =>
      rw [ha] at hw5
      dsimp only at hw5
      simp at hw5
    | some ac =>
      rw [ha] at hw5
      dsimp only at hw5
      have hw5c := mem_ite_singleton hw5
      subst hw5c
      exact Or.inr (Or.inr (Or.inr (Or.inr (by simp [ha]))))

theorem invoice_fill_loop_cols (cols : InvCols) (markings : List Marking) :
    ∀ (comps : List CompRecord) (dr : ℕ) (rn : ℤ),
      ∀ w ∈ invoice_fill_loop cols markings dr rn comps,
        w.col = 1 ∨ some w.col = cols.name_col ∨ some w.col = cols.unit_col ∨
        some w.col = cols.qty_col ∨ some w.col = cols.area_col := by
  intro comps
  induction comps with
  | nil => intro dr rn w hw; simp [invoice_fill_loop] at hw
  | cons item rest ih =>
    intro dr rn w hw
    rw [invoice_fill_loop] at hw
    by_cases hpos : 0 < item.actual
    · rw [if_pos hpos] at hw
      rcases List.mem_append.mp hw with hw | hw
      · exact invoice_item_writes_cols cols markings dr rn item w hw
      · exact ih (dr + 1) (rn + 1) w hw
    · rw [if_neg hpos] at hw
      exact ih dr rn w hw

/-- With no resolvable article column and at least one data row, the
update loop of the specification render raises at its first row. -/
theorem updated_spec_article_fatal :
    ∀ (ws : Sheet) (comparison : List CompRecord) (d : String),
      (resolve_spec_columns ws).article_col = none → 2 ≤ maxRow ws →
      ∃ e, generate_updated_specification (some ws) comparison d = .error e := by
  intro ws comparison d hart hrow
  unfold generate_updated_specification
  have hr : List.range' 2 (maxRow ws - 1) = 2 :: List.range' 3 (maxRow ws - 2) := by
    have h2 : maxRow ws - 1 = (maxRow ws - 2) + 1 := by omega
    rw [h2, List.range'_succ]
  dsimp only
  rw [hr, List.foldlM_cons, hart]
  rw [show ∀ sc dc, update_row ws none sc dc comparison d 2 =
      .error "TypeError: column must be a positive integer" from fun sc dc => rfl]
  exact ⟨"TypeError: column must be a positive integer", rfl⟩

/-! ## The claims -/

/-- C3: every MarkingRecord the pipeline produces — whether returned by
`extract_marking_from_photo` for any recognition outcome, or synthesized
by `step3_extract_markings` for an unreadable photo — has status `✅`
(Full) iff both name and article are present, `⚠️` (Partial) iff the
article is present and the name absent, and `❌` (Failed) otherwise. -/
theorem C3_status_tier_invariant :
    (∀ o : GeminiOutcome, statusTierOk (extract_marking_from_photo o)) ∧
    (∀ (f : String) (i : ℕ), statusTierOk (unreadableMarking f i)) := by
  constructor
  · intro o
    cases o with
    | transportError msg => simp [extract_marking_from_photo, statusTierOk]
    | badJson => simp [extract_marking_from_photo, statusTierOk]
    | json nm art dims err =>
      by_cases he : pyTruthyO err
      · simp [extract_marking_from_photo, he, statusTierOk]
      · cases nm <;> cases art <;>
          simp [extract_marking_from_photo, he, statusTierOk]
  · intro f i
    simp [unreadableMarking, statusTierOk]

/-- C6 counterexample: a recognition response that carries an explicit
`error` field whose value is the empty string (falsy in Python) together
with a name and an article is NOT turned into a Failed record —
`extract_marking_from_photo` classifies it Full (status ✅, readable
true), because the code tests `result_json.get('error')` for truthiness,
not for presence. -/
theorem C6_error_field_counterexample :
    (extract_marking_from_photo
        (GeminiOutcome.json (some "Товар") (some "АРТ-1") none (some ""))).status = "✅" ∧
    (extract_marking_from_photo
        (GeminiOutcome.json (some "Товар") (some "АРТ-1") none (some ""))).readable = some true ∧
    (extract_marking_from_photo
        (GeminiOutcome.json (some "Товар") (some "АРТ-1") none (some ""))).status ≠ "❌" :=
  ⟨by decide, by decide, by decide⟩

/-- C6 (amended): `extract_marking_from_photo` never propagates an
exception (it is total), and for every transport failure, unparseable
response, or response whose `error` field holds a truthy (non-empty)
message, it returns a Failed record: status ❌, readable false,
name/article/dimensions absent, and a diagnostic comment present. A
response whose `error` field is falsy (absent, null, or empty) is instead
classified by the name/article completeness rule, exactly as if the field
were absent. -/
theorem C6_no_throw_failure_record :
    ∀ o : GeminiOutcome,
      (((∃ m, o = .transportError m) ∨ o = .badJson ∨
        (∃ n a d e, o = .json n a d e ∧ pyTruthyO e = true)) →
        (extract_marking_from_photo o).status = "❌" ∧
        (extract_marking_from_photo o).readable = some false ∧
        (extract_marking_from_photo o).name = none ∧
        (extract_marking_from_photo o).article = none ∧
        (extract_marking_from_photo o).dimensions = none ∧
        ((extract_marking_from_photo o).comment).isSome = true) ∧
      (∀ n a d e, o = .json n a d e → pyTruthyO e = false →
        extract_marking_from_photo o = extract_marking_from_photo (.json n a d none)) := by
  intro o
  constructor
  · intro h
    rcases h with ⟨m, rfl⟩ | rfl | ⟨n, a, d, e, rfl, he⟩
    · simp [extract_marking_from_photo]
    · simp [extract_marking_from_photo]
    · simp [extract_marking_from_photo, he]
  · rintro n a d e rfl he
    have hnone : pyTruthyO (none : Option String) = false := rfl
    simp only [extract_marking_from_photo, he, hnone, Bool.false_eq_true, if_false]

/-- C6 witness: the no-throw contract instantiated at an unparseable
response. -/
theorem C6_no_throw_failure_record_witness :
    (extract_marking_from_photo GeminiOutcome.badJson).status = "❌" ∧
    (extract_marking_from_photo GeminiOutcome.badJson).readable = some false := by
  have h := (C6_no_throw_failure_record GeminiOutcome.badJson).1 (Or.inr (Or.inl rfl))
  exact ⟨h.1, h.2.1⟩

/-- C7: `calculate_square_meters` never raises (it is a total function):
it returns 0 whenever no width-by-height pattern is found, and on a match
divides both numbers by 1000 iff an `мм`/`mm` token is present in the
text or either number exceeds 100, rounding the product to 3 decimals;
in particular `"500x300 мм"` gives 0.15, `"1.2*0.8"` gives 0.96, and
`"no dims"` gives 0. -/
theorem C7_dimension_parsing :
    (∀ (name : String) (dims : Option String),
        findDims (pyLower (pyOrText dims name)) = none →
        calculate_square_meters name dims = 0) ∧
    (∀ (name : String) (dims : Option String) (wn hn : PyNum),
        findDims (pyLower (pyOrText dims name)) = some (wn, hn) →
        calculate_square_meters name dims =
          pyRound 3 (if hasMmToken (pyLower (pyOrText dims name)) = true
                       ∨ 100 < numVal wn ∨ 100 < numVal hn
                     then (numVal wn / 1000) * (numVal hn / 1000)
                     else numVal wn * numVal hn)) ∧
    calculate_square_meters "500x300 мм" = 3/20 ∧
    calculate_square_meters "1.2*0.8" = 24/25 ∧
    calculate_square_meters "no dims" = 0 := by
  refine ⟨?_, ?_, ?_, ?_, ?_⟩
  · intro name dims h
    simp only [calculate_square_meters, h]
  · intro name dims wn hn h
    simp only [calculate_square_meters, h]
    by_cases hm : hasMmToken (pyLower (pyOrText dims name)) = true
    · simp [hm]
    · by_cases h100 : 100 < numVal wn ∨ 100 < numVal hn
      · simp [hm, h100]
      · simp [hm, h100]
  · have h : findDims (pyLower (pyOrText none "500x300 мм")) =
        some (⟨500, 0, 0⟩, ⟨300, 0, 0⟩) := by decide
    have hmm : hasMmToken (pyLower (pyOrText none "500x300 мм")) = true := by decide
    simp only [calculate_square_meters, h, hmm, if_true]
    norm_num [numVal, pyRound, roundHalfEven]
  · have h : findDims (pyLower (pyOrText none "1.2*0.8")) =
        some (⟨1, 2, 1⟩, ⟨0, 8, 1⟩) := by decide
    have hmm : hasMmToken (pyLower (pyOrText none "1.2*0.8")) = false := by decide
    simp only [calculate_square_meters, h, hmm]
    norm_num [numVal, pyRound, roundHalfEven]
  · have h : findDims (pyLower (pyOrText none "no dims")) = none := by decide
    simp only [calculate_square_meters, h]

/-- C7 witness: the no-pattern clause instantiated at a patternless text. -/
theorem C7_dimension_parsing_witness :
    findDims (pyLower (pyOrText none "abc")) = none ∧ calculate_square_meters "abc" = 0 :=
  ⟨by decide, C7_dimension_parsing.1 "abc" none (by decide)⟩

/-- C8: for a decoded image, `check_image_quality` reports readable iff
zero issues were found, and the issues are exactly low resolution
(width or height below 300), blur (thumbnail population variance below
500), overexposure (mean brightness above 240) and underexposure (mean
brightness below 15); a decoding failure is caught and surfaced as a
non-readable assessment carrying the error as an issue. -/
theorem C8_image_quality :
    (∀ (w h : ℕ) (pixels : List ℕ), pixels ≠ [] →
      ((check_image_quality (.img w h pixels)).readable = true ↔
        (check_image_quality (.img w h pixels)).issues = []) ∧
      ("Низкое разрешение" ∈ (check_image_quality (.img w h pixels)).issues ↔
        (w < 300 ∨ h < 300)) ∧
      ("Изображение размыто" ∈ (check_image_quality (.img w h pixels)).issues ↔
        varianceOf pixels < 500) ∧
      ("Пересвет" ∈ (check_image_quality (.img w h pixels)).issues ↔
        240 < avgOf pixels) ∧
      ("Недосвет" ∈ (check_image_quality (.img w h pixels)).issues ↔
        avgOf pixels < 15) ∧
      (∀ s ∈ (check_image_quality (.img w h pixels)).issues,
        s ∈ ["Низкое разрешение", "Изображение размыто", "Пересвет", "Недосвет"])) ∧
    (∀ msg, (check_image_quality (.failure msg)).readable = false ∧
      ("Ошибка обработки: " ++ msg) ∈ (check_image_quality (.failure msg)).issues) := by
  constructor
  · intro w h pixels hp
    have hne : pixels.isEmpty = false := by
      cases pixels with
      | nil => exact absurd rfl hp
      | cons a l => rfl
    by_cases h1 : w < 300 ∨ h < 300 <;>
    by_cases h2 : varianceOf pixels < 500 <;>
    by_cases h3 : 240 < avgOf pixels
    all_goals {
      by_cases h4 : avgOf pixels < 15
      all_goals {
        first
        | (exfalso; linarith)
        | (simp only [check_image_quality, hne, Bool.false_eq_true, if_false,
              h1, h2, h3, h4, if_true, if_false]
           refine ⟨?_, ?_, ?_, ?_, ?_, ?_⟩ <;> simp_all)
      }
    }
  · intro msg
    refine ⟨rfl, ?_⟩
    simp [check_image_quality, qualityErrorInfo]

/-- C8 witness: classification instantiated at a concrete sharp,
well-exposed 400×400 image. -/
theorem C8_image_quality_witness :
    ([0, 100] : List ℕ) ≠ [] ∧
    ((check_image_quality (.img 400 400 [0, 100])).readable = true ↔
      (check_image_quality (.img 400 400 [0, 100])).issues = []) :=
  ⟨by decide, (C8_image_quality.1 400 400 [0, 100] (by decide)).1⟩

/-- C1: every ComparisonRecord produced by a successful run of step 5 has
`difference = actual - planned` and status ✅ (Match) iff the difference
is 0, ⬇️ (Shortage) iff it is negative, ⬆️ (Excess) iff it is positive
and the article appears in the specification, and 🔁 (Unplanned, with
planned 0 and difference = actual) iff the article never appears in the
specification; on the §8 example (spec A1:10, A2:5; actual A1:10, A2:7,
A3:2) the result is A1 Match(0), A2 Excess(+2), A3 Unplanned(+2) with
summary counts match=1, shortage=0, excess=1, unplanned=1. -/
theorem C1_comparison_classification :
    (∀ (specification : List SpecItem) (ms : List Marking) (r : Step5Result),
      step5_core specification ms = .ok r →
      ∀ c ∈ r.comparison,
        c.difference = c.actual - c.planned ∧
        (c.status = "✅" ↔ c.difference = 0) ∧
        (c.status = "⬇️" ↔ c.difference < 0) ∧
        (c.status = "⬆️" ↔ (0 < c.difference ∧ c.article ∈ spec_articles specification)) ∧
        (c.status = "🔁" ↔ c.article ∉ spec_articles specification) ∧
        (c.status = "🔁" → c.planned = 0 ∧ c.difference = c.actual)) ∧
    step5_core exampleSpec exampleMarkings = .ok exampleStep5Result := by
  constructor
  · intro specification ms r h c hc
    rcases step5_core_ok_shape specification ms r h with ⟨d, hd, hcomp⟩
    rw [hcomp] at hc
    rcases List.mem_append.mp hc with hcs | hcu
    · rcases List.mem_map.mp hcs with ⟨item, hitem, rfl⟩
      have hmem : item.article ∈ spec_articles specification :=
        List.mem_map.mpr ⟨item, hitem, rfl⟩
      dsimp only [specCompareRecord]
      rcases lt_trichotomy ((dictGet d item.article : ℤ) - item.quantity) 0 with hlt | heq | hgt
      · rw [if_neg (by omega : ¬ ((dictGet d item.article : ℤ) - item.quantity = 0)),
          if_pos hlt]
        refine ⟨rfl, ?_, ?_, ?_, ?_, ?_⟩
        · exact iff_of_false (by decide) (by omega)
        · exact iff_of_true rfl hlt
        · exact iff_of_false (by decide) (by simp [hmem]; omega)
        · exact iff_of_false (by decide) (by simpa using hmem)
        · intro hcon; exact absurd hcon (by decide)
      · rw [if_pos heq]
        refine ⟨rfl, ?_, ?_, ?_, ?_, ?_⟩
        · exact iff_of_true rfl heq
        · exact iff_of_false (by decide) (by omega)
        · exact iff_of_false (by decide) (by simp [hmem]; omega)
        · exact iff_of_false (by decide) (by simpa using hmem)
        · intro hcon; exact absurd hcon (by decide)
      · rw [if_neg (by omega : ¬ ((dictGet d item.article : ℤ) - item.quantity = 0)),
          if_neg (by omega : ¬ ((dictGet d item.article : ℤ) - item.quantity < 0))]
        refine ⟨rfl, ?_, ?_, ?_, ?_, ?_⟩
        · exact iff_of_false (by decide) (by omega)
        · exact iff_of_false (by decide) (by omega)
        · exact iff_of_true rfl ⟨hgt, hmem⟩
        · exact iff_of_false (by decide) (by simpa using hmem)
        · intro hcon; exact absurd hcon (by decide)
    · rcases List.mem_map.mp hcu with ⟨a, ha, rfl⟩
      have hmemd : a ∈ d.map Prod.fst := (List.mem_filter.mp ha).1
      have hnot : a ∉ spec_articles specification := by
        have h2 := (List.mem_filter.mp ha).2
        simp at h2
        exact h2
      have hpos : 1 ≤ dictGet d a :=
        dictGet_pos d a hmemd (actual_count_spec ms d hd).2.2.1
      dsimp only [unplannedRecord]
      refine ⟨by omega, ?_, ?_, ?_, ?_, ?_⟩
      · exact iff_of_false (by decide) (by omega)
      · exact iff_of_false (by decide) (by omega)
      · exact iff_of_false (by decide) (fun hcon => hnot hcon.2)
      · exact iff_of_true rfl hnot
      · intro _; exact ⟨rfl, rfl⟩
  · decide

/-- C1 witness: the classification clauses instantiated at the Excess row
of the §8 example. -/
theorem C1_comparison_classification_witness :
    ((⟨"A2", "", 5, 7, 2, "⬆️"⟩ : CompRecord).status = "⬆️" ↔
      (0 < (⟨"A2", "", 5, 7, 2, "⬆️"⟩ : CompRecord).difference ∧
        (⟨"A2", "", 5, 7, 2, "⬆️"⟩ : CompRecord).article ∈ spec_articles exampleSpec)) :=
  (C1_comparison_classification.1 exampleSpec exampleMarkings exampleStep5Result
    (by decide) _ (by decide)).2.2.2.1

/-- C4: step 5's actual counts tally exactly the markings that are both
readable (`readable` equal to `True`) and carry a truthy (non-empty)
article — a record whose `readable` is `False` contributes nothing even
when it carries an article string — and the comparison's article column
is the specification articles in file order followed by the unplanned
articles in first-seen order of the counted markings. -/
theorem C4_actual_counts_and_order :
    (∀ (ms : List Marking) (d : List (String × ℕ)),
        actual_count ms = .ok d →
        ∀ a, dictGet d a = ((ms.filter countedMarking).map articleKey).count a) ∧
    (∀ (specification : List SpecItem) (ms : List Marking) (r : Step5Result),
        step5_core specification ms = .ok r →
        r.comparison.map (fun c => c.article) =
          specification.map (fun item => item.article) ++
          (dedupFirst ((ms.filter countedMarking).map articleKey)).filter
            (fun a => !((spec_articles specification).contains a))) := by
  constructor
  · intro ms d hd
    exact (actual_count_spec ms d hd).1
  · intro specification ms r h
    exact step5_comparison_articles specification ms r h

/-- C4 witness: the counting clause instantiated at the §8 example
markings. -/
theorem C4_actual_counts_and_order_witness :
    dictGet [("A1", 10), ("A2", 7), ("A3", 2)] "A1" =
      ((exampleMarkings.filter countedMarking).map articleKey).count "A1" :=
  (C4_actual_counts_and_order.1 exampleMarkings [("A1", 10), ("A2", 7), ("A3", 2)]
    (by decide)) "A1"

/-- C5 counterexample: a specification sheet with the duplicated article
`B` (quantities 1 and 2, both rows kept by the parser) yields a
comparison list with TWO entries for the single distinct article of the
union, refuting "exactly one entry per distinct article". -/
theorem C5_duplicate_article_counterexample :
    (parse_excel_rows true dupRows).map (fun item => item.article) = ["B", "B"] ∧
    step5_core (parse_excel_rows true dupRows) [] = .ok
      ⟨[⟨"B", "Деталь", 1, 0, -1, "⬇️"⟩, ⟨"B", "Деталь", 2, 0, -2, "⬇️"⟩], 2, 0, 2, 0, 0⟩ ∧
    ([⟨"B", "Деталь", 1, 0, -1, "⬇️"⟩, ⟨"B", "Деталь", 2, 0, -2, "⬇️"⟩] : List CompRecord).countP
      (fun c => c.article == "B") = 2 :=
  ⟨by decide, by decide, by decide⟩

/-- C5 (amended): the comparison list has exactly one entry per
specification item (duplicated article values are NOT merged — each
duplicate row yields its own entry) plus one entry per distinct unplanned
observed article; when the specification's articles are pairwise
distinct, this is exactly one entry per distinct article of the union
(the article column is duplicate-free). -/
theorem C5_one_entry_per_item :
    ∀ (specification : List SpecItem) (ms : List Marking) (r : Step5Result),
      step5_core specification ms = .ok r →
      r.comparison.length = specification.length +
        ((dedupFirst ((ms.filter countedMarking).map articleKey)).filter
          (fun a => !((spec_articles specification).contains a))).length ∧
      ((specification.map (fun item => item.article)).Nodup →
        (r.comparison.map (fun c => c.article)).Nodup) := by
  intro specification ms r h
  have harts := step5_comparison_articles specification ms r h
  constructor
  · have hlen := congrArg List.length harts
    simpa using hlen
  · intro hnd
    rw [harts]
    refine List.Nodup.append hnd ((dedupFirst_nodup _).filter _) ?_
    intro a ha hc
    have h2 := List.of_mem_filter hc
    simp at h2
    exact h2 ha

/-- C5 witness: the amended count instantiated at a singleton
specification with no markings. -/
theorem C5_one_entry_per_item_witness :
    (⟨[⟨"C", "", 3, 0, -3, "⬇️"⟩], 1, 0, 1, 0, 0⟩ : Step5Result).comparison.length =
      ([⟨"C", 3, ""⟩] : List SpecItem).length +
        ((dedupFirst ((([] : List Marking).filter countedMarking).map articleKey)).filter
          (fun a => !((spec_articles [⟨"C", 3, ""⟩]).contains a))).length :=
  (C5_one_entry_per_item [⟨"C", 3, ""⟩] [] ⟨[⟨"C", "", 3, 0, -3, "⬇️"⟩], 1, 0, 1, 0, 0⟩
    (by decide)).1

/-- C2 counterexample: `step2_check_photo_quality` performs no
prerequisite check at all — invoked on a fresh session whose predecessor
results are absent it does NOT fail, records its result, and advances the
step to 3, mutating the workflow state. -/
theorem C2_step2_no_prereq_counterexample :
    s0.results_photo_quality = none ∧ s0.step = 1 ∧
    (step2_check_photo_quality s0).1.step = 3 ∧
    ((step2_check_photo_quality s0).1.results_photo_quality).isSome = true ∧
    (step2_check_photo_quality s0).1 ≠ s0 :=
  ⟨rfl, rfl, rfl, rfl, fun hcon => absurd (congrArg SessionData.step hcon) (by decide)⟩

/-- C2 (amended): `step4_count_verification` and
`step5_compare_specification` do fail when the markings result of step 3
is absent — with the markings-missing condition (step 5 reports the
missing specification file first when that too is absent) — and leave the
session state completely unchanged; `step2_check_photo_quality`, however,
performs no prerequisite check: it always succeeds, records its result
and advances the step to 3. -/
theorem C2_prerequisite_gating :
    (∀ s : SessionData, s.results_markings = none →
        (step4_count_verification s).1 = s ∧
        (step4_count_verification s).2 = .error markingsMissingMsg ∧
        (step5_compare_specification s).1 = s ∧
        (step5_compare_specification s).2 =
          .error (if s.specification.isSome then markingsMissingMsg else specMissingMsg)) ∧
    (∀ s : SessionData,
        (step2_check_photo_quality s).1.step = 3 ∧
        ((step2_check_photo_quality s).1.results_photo_quality).isSome = true ∧
        (step2_check_photo_quality s).2.total = s.photos.length) := by
  constructor
  · intro s hm
    refine ⟨?_, ?_, ?_, ?_⟩
    · unfold step4_count_verification
      rw [hm]
    · unfold step4_count_verification
      rw [hm]
    · unfold step5_compare_specification
      cases hspec : s.specification with
      | none => rfl
      | some parsed => rw [hm]
    · unfold step5_compare_specification
      cases hspec : s.specification with
      | none => simp
      | some parsed => rw [hm]; simp
  · intro s
    refine ⟨rfl, rfl, ?_⟩
    simp [step2_check_photo_quality]

/-- C2 witness: the gating clauses instantiated at the fresh session. -/
theorem C2_prerequisite_gating_witness :
    (step4_count_verification s0).1 = s0 ∧
    (step4_count_verification s0).2 = .error markingsMissingMsg :=
  ⟨(C2_prerequisite_gating.1 s0 rfl).1, (C2_prerequisite_gating.1 s0 rfl).2.1⟩

/-- C9 counterexample: when the uploaded specification sheet has no
resolvable article column, `generate_updated_specification` does not skip
that field — it raises (openpyxl rejects `column=None`), so the column
failure is fatal to this render, refuting "non-fatal for every semantic
role column and both renders". -/
theorem C9_article_column_counterexample :
    (resolve_spec_columns noArticleSheet).article_col = none ∧
    generate_updated_specification (some noArticleSheet) [] "01.01.2024" =
      .error "TypeError: column must be a positive integer" :=
  ⟨by decide, by decide⟩

/-- C9 (amended): in the filled-invoice render an unresolved role column
(name, unit, quantity, area) is non-fatal — the render always completes,
and every write targets the position column 1 or a resolved role column,
so an unresolved field is simply never written; in the
updated-specification render the shipped and date columns are created
when missing, but an unresolved article column is fatal whenever the
sheet has at least one data row: the render raises instead of skipping. -/
theorem C9_generator_column_fault_tolerance :
    (∀ (ws : Sheet) (comparison : List CompRecord) (markings : List Marking),
        ∃ wr, generate_filled_invoice (some ws) comparison markings = .ok wr ∧
          ∀ w ∈ wr, w.col = 1 ∨
            some w.col = (resolve_invoice_columns (rowCells ws (find_header_row ws))).name_col ∨
            some w.col = (resolve_invoice_columns (rowCells ws (find_header_row ws))).unit_col ∨
            some w.col = (resolve_invoice_columns (rowCells ws (find_header_row ws))).qty_col ∨
            some w.col = (resolve_invoice_columns (rowCells ws (find_header_row ws))).area_col) ∧
    (∀ (ws : Sheet) (comparison : List CompRecord) (d : String),
        (resolve_spec_columns ws).article_col = none → 2 ≤ maxRow ws →
        ∃ e, generate_updated_specification (some ws) comparison d = .error e) := by
  constructor
  · intro ws comparison markings
    refine ⟨_, rfl, ?_⟩
    exact invoice_fill_loop_cols _ markings comparison (find_header_row ws + 1) 1
  · exact updated_spec_article_fatal

/-- C9 witness: the fatal clause instantiated at a concrete two-row sheet
without an article header. -/
theorem C9_generator_column_fault_tolerance_witness :
    (resolve_spec_columns (⟨[[none], [some "X1"]]⟩ : Sheet)).article_col = none ∧
    2 ≤ maxRow (⟨[[none], [some "X1"]]⟩ : Sheet) ∧
    ∃ e, generate_updated_specification (some (⟨[[none], [some "X1"]]⟩ : Sheet)) []
      "02.02.2024" = .error e :=
  ⟨by decide, by decide,
    C9_generator_column_fault_tolerance.2 ⟨[[none], [some "X1"]]⟩ [] "02.02.2024"
      (by decide) (by decide)⟩

/-- C10: a decoded photo with exactly one quality issue is precisely the
marginal ⚠️ tier, and any ⚠️-tier assessment is non-readable; for every
photo whose stored quality record is non-readable, step 3 produces the
synthesized record (status ❌, comment "Фото нечитаемо", article absent)
regardless of the extraction oracle — the adapter's outcome for that
index cannot influence the result — and that record leaves step 5's
actual-count dictionary untouched, so such a photo can never contribute
to the counts `compareSpecification` uses. -/
theorem C10_marginal_photo_unreadable :
    (∀ (w h : ℕ) (px : List ℕ), px.isEmpty = false →
        ((check_image_quality (.img w h px)).issues.length = 1 ↔
          (check_image_quality (.img w h px)).status = "⚠️")) ∧
    (∀ inp : ImageInput,
        (check_image_quality inp).status = "⚠️" → (check_image_quality inp).readable = false) ∧
    (∀ (photos : List Photo) (pq : List QualityInfo) (oracle : ℕ → GeminiOutcome)
        (ms : List Marking) (i : ℕ) (hi : i < photos.length) (qi : QualityInfo),
        step3_core photos (some pq) oracle = .ok ms →
        pq.get? i = some qi →
        qi.readable = false →
        ms.get? i = some (unreadableMarking (photos.get ⟨i, hi⟩).filename i)) ∧
    (∀ (f : String) (i : ℕ),
        (unreadableMarking f i).status = "❌" ∧
        (unreadableMarking f i).article = none ∧
        (unreadableMarking f i).comment = some "Фото нечитаемо") ∧
    (∀ (dacc : List (String × ℕ)) (f : String) (i : ℕ),
        countStep dacc (unreadableMarking f i) = .ok dacc) := by
  refine ⟨?_, ?_, ?_, ?_, ?_⟩
  · intro w h px hne
    rw [check_image_quality_img_eq w h px hne]
    exact (status_marginal_iff (imgIssues w h px)).symm
  · intro inp hst
    cases inp with
    | failure msg =>
      rw [show (check_image_quality (.failure msg)).status = "❌" from rfl] at hst
      exact absurd hst (by decide)
    | img w h px =>
      cases hne : px.isEmpty with
      | true =>
        have hq : check_image_quality (.img w h px) = qualityErrorInfo "division by zero" := by
          simp only [check_image_quality, hne, if_true]
        rw [hq] at hst
        exact absurd hst (by decide)
      | false =>
        rw [check_image_quality_img_eq w h px hne] at hst ⊢
        have hlen : (imgIssues w h px).length = 1 := (status_marginal_iff _).mp hst
        show (imgIssues w h px).isEmpty = false
        cases hl : imgIssues w h px with
        | nil => rw [hl] at hlen; simp at hlen
        | cons a l => rfl
  · intro photos pq oracle ms i hi qi h hqi hqr
    rcases step3_loop_get photos (some pq) oracle 0 ms h i hi with ⟨m, hm, hget⟩
    rw [Nat.zero_add] at hm
    rw [step3_item, hqi] at hm
    dsimp only at hm
    rw [if_pos hqr] at hm
    simp only [Except.ok.injEq] at hm
    rw [hget, ← hm]
  · intro f i
    exact ⟨rfl, rfl, rfl⟩
  · intro dacc f i
    rfl

/-- C10 witness: the guarantees instantiated at a 200×400 (low
resolution, otherwise clean) photo and a one-photo session. -/
theorem C10_marginal_photo_unreadable_witness :
    ((check_image_quality (.img 200 400 [0, 100])).issues.length = 1 ↔
      (check_image_quality (.img 200 400 [0, 100])).status = "⚠️") ∧
    ([unreadableMarking "p1.jpg" 0] : List Marking).get? 0 =
      some (unreadableMarking
        (([⟨marginalImage, "p1.jpg"⟩] : List Photo).get ⟨0, by decide⟩).filename 0) := by
  constructor
  · exact C10_marginal_photo_unreadable.1 200 400 [0, 100] (by decide)
  · exact C10_marginal_photo_unreadable.2.2.1 [⟨marginalImage, "p1.jpg"⟩]
      [⟨"⚠️", false, ["Низкое разрешение"], "200x400", 50, "p1.jpg", 0⟩]
      (fun _ => GeminiOutcome.badJson) [unreadableMarking "p1.jpg" 0] 0 (by decide)
      ⟨"⚠️", false, ["Низкое разрешение"], "200x400", 50, "p1.jpg", 0⟩
      rfl rfl rfl

end WarehouseApp
